import Mathlib

/-!
Verification development for the Scribe-AI streaming transcription engine.

The definitions below are a shallow embedding of the transcript pipeline:
the per-chunk merge logic and session-transcript block merge of
`src/server/services/transcription.ts` (processAudioChunk,
generateSessionSummary), the socket handlers of the custom server in
`src/server/services/gemini-live.ts` (transcript:chunk, audio:chunk,
session:start, the raw audio WebSocket path), the primary-backend
WebSocket service (startLiveSession / streamAudioChunk / hasActiveSession),
the stop route `src/app/api/sessions/[id]/stop/route.ts`, and the
client-side chunk buffer of `src/hooks/use-speech-recognition.ts`.

JavaScript strings are modelled as Lean `String`; the handful of string
operations the source uses (`includes`, `trim`, `startsWith`, the one
block-merge regex) are implemented below on `List Char` so that every
definition is executable and decidable.
-/

namespace Scribe

/-- Boolean test that `pre` is a prefix of `l` (JS `startsWith` on char lists). -/
def listStarts : List Char → List Char → Bool
  | _, [] => true
  | [], _ :: _ => false
  | a :: as, b :: bs => a == b && listStarts as bs

/-- Boolean substring test: `needle` occurs contiguously inside `hay`
(JS `hay.includes(needle)`). -/
def listHasSub : List Char → List Char → Bool
  | [], needle => needle.isEmpty
  | c :: t, needle => listStarts (c :: t) needle || listHasSub t needle

/-- Drop leading whitespace (structural helper for `trim`). -/
def trimL : List Char → List Char
  | [] => []
  | c :: r => if c.isWhitespace then trimL r else c :: r

/-- Drop trailing whitespace. -/
def trimR (l : List Char) : List Char := (trimL l.reverse).reverse

/-- JS `String.prototype.trim` on char lists: drop whitespace at both ends. -/
def listTrim (l : List Char) : List Char := trimR (trimL l)

/-- JS `hay.includes(needle)` on `String`. -/
def strHasSub (hay needle : String) : Bool := listHasSub hay.data needle.data

/-- JS `s.startsWith(p)` on `String`. -/
def strStarts (s p : String) : Bool := listStarts s.data p.data

/-- JS `s.trim()` on `String`. -/
def strTrim (s : String) : String := String.mk (listTrim s.data)

/-- True when the trimmed string is nonempty (JS `s.trim().length > 0`). -/
def trimNonempty (s : String) : Bool := !(listTrim s.data).isEmpty

/-- One `transcript_chunks` row: `(sessionId, chunkIndex, transcript,
startTime, endTime)` as created by the Prisma model. -/
structure ChunkRow where
  sessionId : String
  chunkIndex : Nat
  transcript : String
  startTime : Nat
  endTime : Nat
deriving DecidableEq, Repr

/-- One `sessions` row, restricted to the fields the pipeline touches. -/
structure SessionRow where
  id : String
  userId : String
  transcript : String
  status : String
  summary : Option String
deriving DecidableEq, Repr

/-- The persisted state the pipeline reads and writes: all chunk rows and
all session rows. -/
structure DB where
  chunks : List ChunkRow
  sessions : List SessionRow
deriving DecidableEq, Repr

/-- Row predicate used by every `prisma.transcriptChunk.findFirst` /
`filter` in the source: match on `(sessionId, chunkIndex)`. -/
def chunkKey (sid : String) (idx : Nat) (c : ChunkRow) : Bool :=
  c.sessionId == sid && c.chunkIndex == idx

/-- Embedding of `prisma.transcriptChunk.findFirst({where:{sessionId, chunkIndex}})`:
the first row matching the pair. -/
def findFirstChunk (rows : List ChunkRow) (sid : String) (idx : Nat) : Option ChunkRow :=
  rows.find? (chunkKey sid idx)

/-- Embedding of `prisma.transcriptChunk.update({where:{id: existing.id}})`
with a new transcript: rewrite the text of the first row matching the pair
(the row `findFirst` returned), leaving every other row alone. -/
def updateFirstChunk (rows : List ChunkRow) (sid : String) (idx : Nat) (t : String) :
    List ChunkRow :=
  match rows with
  | [] => []
  | c :: rest =>
    if chunkKey sid idx c then { c with transcript := t } :: rest
    else c :: updateFirstChunk rest sid idx t

/-- Embedding of `prisma.appSession.findUnique({where:{id}})`. -/
def findSession (rows : List SessionRow) (sid : String) : Option SessionRow :=
  rows.find? (fun s => s.id == sid)

/-- Update the transcript field of the session row with the given id. -/
def writeSessionTranscript (rows : List SessionRow) (sid : String) (t : String) :
    List SessionRow :=
  rows.map (fun s => if s.id == sid then { s with transcript := t } else s)

/-- Number of chunk rows stored for a `(sessionId, chunkIndex)` pair. -/
def countRows (db : DB) (sid : String) (idx : Nat) : Nat :=
  (db.chunks.filter (chunkKey sid idx)).length

/-- Transcript text of the first stored row for the pair, if any. -/
def chunkTextAt (db : DB) (sid : String) (idx : Nat) : Option String :=
  (findFirstChunk db.chunks sid idx).map (fun c => c.transcript)

/-- Transcript field of the session row, if the session exists. -/
def sessionTranscriptAt (db : DB) (sid : String) : Option String :=
  (findSession db.sessions sid).map (fun s => s.transcript)

/-- Status field of the session row, if the session exists. -/
def sessionStatusAt (db : DB) (sid : String) : Option String :=
  (findSession db.sessions sid).map (fun s => s.status)

/-- Summary field of the session row, if the session exists. -/
def sessionSummaryAt (db : DB) (sid : String) : Option (Option String) :=
  (findSession db.sessions sid).map (fun s => s.summary)

/-- True when some stored chunk row matches the `(sessionId, chunkIndex)`
pair. -/
def hasChunkRow (db : DB) (sid : String) (idx : Nat) : Bool :=
  db.chunks.any (chunkKey sid idx)

/-- Time-range block header `[Ns - Ms]` used inside the running transcript
(template literal at transcription.ts:204 and gemini-live.ts:635). -/
def mkHeader (s e : Nat) : String :=
  "[" ++ toString s ++ "s - " ++ toString e ++ "s]"

/-- Replacement text for one matched block: the source combines the text
already under the header with the trimmed incoming text, space-joined,
or uses the incoming text alone when the block was empty
(transcription.ts:215-218). `grabbed` is the raw text captured by the
regex group `([^\[]*)`, `newTrim` the trimmed incoming text. -/
def grabCombined (grabbed newTrim : List Char) : List Char :=
  let ex := listTrim grabbed
  if ex.isEmpty then newTrim else ex ++ ' ' :: newTrim

/-- Fuel-indexed scan implementing the global regex replace
`existing.replace(/(\[Ns - Ms\])([^\[]*)/g, ...)` of transcription.ts:210-220:
find each occurrence of the header, capture the following run of
non-bracket characters, and emit the header, a newline, and the combined
text; text outside matches is copied unchanged. Each step consumes at
least one character, so fuel `l.length` always suffices; the fuel-zero
branch is unreachable for the initial call. -/
def replaceBlocksF (hdr newTrim : List Char) : Nat → List Char → List Char
  | _, [] => []
  | 0, l => l
  | fuel + 1, c :: rest =>
    if listStarts (c :: rest) hdr then
      let after := (c :: rest).drop hdr.length
      let grabbed := after.takeWhile (fun ch => !(ch == '['))
      let remaining := after.dropWhile (fun ch => !(ch == '['))
      hdr ++ '\n' :: (grabCombined grabbed newTrim ++ replaceBlocksF hdr newTrim fuel remaining)
    else c :: replaceBlocksF hdr newTrim fuel rest

/-- The in-place block rewrite on `String`. -/
def replaceBlocks (hdr : String) (newText : String) (existing : String) : String :=
  String.mk (replaceBlocksF hdr.data (listTrim newText.data) existing.data.length existing.data)

/-- Running-transcript merge shared by transcription.ts:195-241 and
gemini-live.ts:626-672: if the exact range header already occurs in the
existing transcript, rewrite that block in place; otherwise append a new
block, separated by a blank line unless the transcript was empty. -/
def mergeSessionTranscript (existing : String) (s e : Nat) (t : String) : String :=
  let hdr := mkHeader s e
  if strHasSub existing hdr then
    replaceBlocks hdr t existing
  else if existing == "" then
    hdr ++ "\n" ++ t
  else
    existing ++ "\n\n" ++ hdr ++ "\n" ++ t

/-- Per-chunk row merge of the backend path (transcription.ts:164-193):
if a row for the pair exists and its text differs from the incoming text,
replace the stored text with the incoming text (the comment in the source
reads: replace with latest, not append, to avoid duplicates); if the text
is identical, leave the row alone; if no row exists, create one. -/
def mergeChunkRow (rows : List ChunkRow) (sid : String) (idx : Nat) (t : String)
    (s e : Nat) : List ChunkRow :=
  match findFirstChunk rows sid idx with
  | some c => if c.transcript == t then rows else updateFirstChunk rows sid idx t
  | none => rows ++ [⟨sid, idx, t, s, e⟩]

/-- Apply the running-transcript merge to the session row when the session
exists (transcription.ts:196-241; a missing session skips the transcript
update). -/
def mergeTranscriptIfSession (db : DB) (sid : String) (s e : Nat) (t : String) : DB :=
  match findSession db.sessions sid with
  | none => db
  | some sess =>
    { db with sessions :=
        writeSessionTranscript db.sessions sid (mergeSessionTranscript sess.transcript s e t) }

/-- Second placeholder filter of the backend path (transcription.ts:158-161),
applied to the selected transcript right before persisting. -/
def isPlaceholderSrv (t : String) : Bool :=
  strHasSub t "Transcription via Web Speech API" ||
  strHasSub t "Audio chunk" ||
  strHasSub t "No speech detected" ||
  strHasSub t "Transcription failed"

/-- Persistence tail of `processAudioChunk` (transcription.ts:157-241):
skip placeholders entirely; otherwise merge the chunk row and then merge
the running transcript. The session-transcript merge runs even when the
chunk-row merge was skipped for identical text. -/
def storeServerTranscript (db : DB) (sid : String) (idx s e : Nat) (t : String) : DB :=
  if isPlaceholderSrv t then db
  else
    mergeTranscriptIfSession
      { db with chunks := mergeChunkRow db.chunks sid idx t s e } sid s e t

/-- Placeholder filter of the client transcript:chunk handler
(gemini-live.ts:556-561). The handler also tests the regex
`\[Audio chunk \d+ recorded from \d+s to \d+s\. Transcription via Web Speech API\.\]`,
but any string matching it contains the literal text `recorded from`, so
the disjunct is subsumed by the substring checks and omitted here. -/
def isPlaceholderClient (t : String) : Bool :=
  strHasSub t "Transcription via Web Speech API" ||
  strHasSub t "Audio chunk" ||
  strHasSub t "recorded from" ||
  strHasSub t "No speech detected" ||
  strHasSub t "Transcription failed"

/-- The transcript:chunk socket handler (gemini-live.ts:546-706), the
client-side partial-recognition ingestion path. Timing is hardcoded to
30-second windows (gemini-live.ts:575). If a row exists and its trimmed
text already contains the trimmed incoming text, the handler returns
before touching either the row or the running transcript; otherwise it
appends the new text to the row with a single space and then merges the
running transcript. -/
def handleTranscriptChunk (db : DB) (sid : String) (transcript : String) (idx : Nat) : DB :=
  if isPlaceholderClient transcript then db
  else
    let s := idx * 30
    let e := s + 30
    match findFirstChunk db.chunks sid idx with
    | some c =>
      let existingText := strTrim c.transcript
      let newText := strTrim transcript
      if strHasSub existingText newText then db
      else
        let updated := if existingText == "" then newText else existingText ++ " " ++ newText
        mergeTranscriptIfSession
          { db with chunks := updateFirstChunk db.chunks sid idx (strTrim updated) }
          sid s e transcript
    | none =>
      mergeTranscriptIfSession
        { db with chunks := db.chunks ++ [⟨sid, idx, strTrim transcript, s, e⟩] }
        sid s e transcript

/-- Outcome of the bounded wait for the next transcript event on the
primary WebSocket connection (gemini-live-websocket streamAudioChunk,
lines 234-250): either the 15-second timeout fires, or a transcript
event delivers text `t`. -/
inductive WsAwait where
  | timeout
  | transcriptEvent (t : String)
deriving DecidableEq, Repr

/-- State of one session entry of the primary-backend registry, as far as
`streamAudioChunk` and `hasActiveSession` observe it: whether the session
is in the `activeSessions` map, whether `geminiWs` is non-null, the
WebSocket `readyState` (OPEN is 1), the `isConnected` flag, whether the
body of the outer try throws before the send (`outerThrow` carries the
error message), whether `geminiWs.send` succeeds, and the awaited event. -/
structure WsState where
  inMap : Bool
  wsPresent : Bool
  readyState : Nat
  isConnected : Bool
  outerThrow : Option String
  sendOk : Bool
  sendErrMsg : String
  await : WsAwait
deriving DecidableEq, Repr

/-- Placeholder message builder: every early return of `streamAudioChunk`
is a bracketed string `[Chunk <index><tail>`. -/
def mkChunkMsg (i : Nat) (tail : String) : String :=
  "[Chunk " ++ toString i ++ tail

/-- Embedding of the primary-backend `streamAudioChunk`
(src/unnamed/part_007, lines 180-255). Every failure mode resolves with a
bracketed placeholder rather than rejecting: unknown session, null
WebSocket handle, socket not OPEN, an exception before the send, a send
error, or the 15-second timeout; only an arriving transcript event
resolves with the transcript text itself. -/
def streamAudioChunk (st : WsState) (i : Nat) : String :=
  if !st.inMap then mkChunkMsg i ": Session not found]"
  else if !st.wsPresent then mkChunkMsg i ": WebSocket not initialized]"
  else if !(st.readyState == 1) then
    mkChunkMsg i (": WebSocket not connected (state: " ++ toString st.readyState ++ ")]")
  else
    match st.outerThrow with
    | some m => mkChunkMsg i (": Error - " ++ m ++ "]")
    | none =>
      if !st.sendOk then mkChunkMsg i (": Send error - " ++ st.sendErrMsg ++ "]")
      else
        match st.await with
        | WsAwait.timeout => mkChunkMsg i ": Timeout waiting for transcript]"
        | WsAwait.transcriptEvent t => t

/-- Embedding of `hasActiveSession` (src/unnamed/part_007, lines 321-324):
the session is in the map, its `isConnected` flag is true, and its
WebSocket handle is non-null. -/
def hasActiveSession (st : WsState) : Bool :=
  st.inMap && st.isConnected && st.wsPresent

/-- Registry entry immediately after `startLiveSession` returns
(src/unnamed/part_007, lines 44-62): stored in the map with a live
WebSocket handle still CONNECTING (readyState 0) and `isConnected` false;
the flag only becomes true when the open event fires. -/
def postStartState (sendOk : Bool) (msg : String) (a : WsAwait) : WsState :=
  { inMap := true, wsPresent := true, readyState := 0, isConnected := false,
    outerThrow := none, sendOk := sendOk, sendErrMsg := msg, await := a }

/-- Outcome of one call to the secondary (REST) backend
`streamAudioChunkREST`: the promise either rejects or resolves with a
string. -/
inductive RestOutcome where
  | throws
  | returns (t : String)
deriving DecidableEq, Repr

/-- Acceptance filter applied to the primary result
(transcription.ts:85-93). -/
def wsFilterOk (t : String) : Bool :=
  trimNonempty t &&
  !strHasSub t "[Chunk" &&
  !strHasSub t "Session not found" &&
  !strHasSub t "Transcription error" &&
  !strHasSub t "WebSocket not connected" &&
  !strHasSub t "Timeout"

/-- Acceptance filter applied to the secondary result on the
no-session path (transcription.ts:54-61). -/
def restFilterDirect (t : String) : Bool :=
  trimNonempty t &&
  !strHasSub t "[Chunk" &&
  !strHasSub t "Session not found" &&
  !strHasSub t "Transcription error" &&
  !strHasSub t "No transcript"

/-- Acceptance filter applied to the secondary result on the fallback
path (transcription.ts:109-113 and 139-143). -/
def restFilterFallback (t : String) : Bool :=
  trimNonempty t &&
  !strHasSub t "[Chunk" &&
  !strHasSub t "No transcript"

/-- Backend-selection logic of `processAudioChunk`
(transcription.ts:26-155), producing the transcript that survives the
acceptance filters, if any. `wsSt` is the primary registry entry for the
session, `restExists` whether the REST registry holds the session
(`hasActiveSessionREST`), and `restRes` the secondary outcome for this
chunk. When neither registry knows the session the secondary backend is
called directly; otherwise the primary is tried first and the secondary
only on an unacceptable primary result. The primary call always resolves
(it never rejects), so the catch-driven fallback at transcription.ts:126-154
is unreachable and not modelled. -/
def selectTranscript (wsSt : WsState) (restExists : Bool) (restRes : RestOutcome)
    (i : Nat) : Option String :=
  let wsExists := hasActiveSession wsSt
  if !(wsExists || restExists) then
    match restRes with
    | RestOutcome.throws => none
    | RestOutcome.returns t => if restFilterDirect t then some t else none
  else
    let w := streamAudioChunk wsSt i
    if wsFilterOk w then some w
    else
      match restRes with
      | RestOutcome.throws => none
      | RestOutcome.returns t => if restFilterFallback t then some t else none

/-- Which backends `processAudioChunk` invokes for one chunk, in call
order. -/
inductive Backend where
  | primary
  | secondary
deriving DecidableEq, Repr

/-- Call trace of the backend selector for one chunk: the direct
secondary route when neither registry knows the session, the primary
alone when its result is accepted, and primary followed by secondary
otherwise. -/
def calledBackends (wsSt : WsState) (restExists : Bool) (i : Nat) : List Backend :=
  if !(hasActiveSession wsSt || restExists) then [Backend.secondary]
  else if wsFilterOk (streamAudioChunk wsSt i) then [Backend.primary]
  else [Backend.primary, Backend.secondary]

/-- Full `processAudioChunk` (transcription.ts:17-251): select a
transcript through the two-tier backend logic, drop the chunk when
nothing acceptable came back, and otherwise run the persistence tail
(placeholder filter, chunk-row merge, running-transcript merge). -/
def processAudioChunk (db : DB) (wsSt : WsState) (restExists : Bool)
    (restRes : RestOutcome) (sid : String) (idx s e : Nat) : DB :=
  match selectTranscript wsSt restExists restRes idx with
  | none => db
  | some t => storeServerTranscript db sid idx s e t

/-- Emission the audio:chunk handler makes after processing
(gemini-live.ts:482-500): re-read the stored row for the pair and emit
its text unless it matches the two guard patterns; nothing is emitted
when no row exists. -/
def emitAfterProcess (db : DB) (sid : String) (idx : Nat) : Option String :=
  match findFirstChunk db.chunks sid idx with
  | none => none
  | some c =>
    if strHasSub c.transcript "Transcription via Web Speech API" ||
       strHasSub c.transcript "Audio chunk" then none
    else some c.transcript

/-- Chunk duration the session:start handler configures per recording
mode (gemini-live.ts:401): 5 seconds for TAB capture, 30 otherwise. -/
def chunkDurationFor (mode : String) : Nat :=
  if mode == "TAB" then 5 else 30

/-- Timing the audio:chunk handler computes for a chunk
(gemini-live.ts:452-463): the metadata duration when the session is
registered, defaulting to 30, with `startTime = chunkIndex * duration`
and `endTime = startTime + duration`. -/
def audioChunkTiming (metadata : Option Nat) (i : Nat) : Nat × Nat :=
  let d := metadata.getD 30
  (i * d, i * d + d)

/-- Timing the transcript:chunk handler computes (gemini-live.ts:574-577):
hardcoded 30-second windows, independent of the configured duration. -/
def transcriptChunkTiming (i : Nat) : Nat × Nat :=
  (i * 30, i * 30 + 30)

/-- Timing `sendAudioChunk` of the raw audio-stream WebSocket path
computes (gemini-live.ts:360-363): hardcoded 30-second windows. -/
def sendAudioChunkTiming (i : Nat) : Nat × Nat :=
  (i * 30, i * 30 + 30)

/-- Whether the client hook initializes Web Speech recognition, the only
emitter of transcript:chunk events (use-speech-recognition.ts:246-250):
TAB mode skips it entirely. -/
def webSpeechEnabled (mode : String) : Bool :=
  !(mode == "TAB")

/-- Client-side chunk-buffer state of the recording hook: the buffered
blob sizes, the next chunk index, and the pause flag
(use-speech-recognition.ts: audioChunksRef, chunkIndexRef, isPausedRef). -/
structure ClientState where
  audioChunks : List Nat
  chunkIndex : Nat
  isPaused : Bool
deriving DecidableEq, Repr

/-- The `mediaRecorder.ondataavailable` handler
(use-speech-recognition.ts:861-894): push nonempty data into the buffer;
when not paused, emit one audio:chunk carrying the current index, clear
the buffer, and increment the index; while paused (or on empty data)
nothing is emitted and the index does not move. -/
def onDataAvailable (st : ClientState) (size : Nat) : ClientState × Option Nat :=
  if size > 0 then
    let st1 := { st with audioChunks := st.audioChunks ++ [size] }
    if !st.isPaused && decide (0 < st1.audioChunks.length) then
      ({ st1 with chunkIndex := st.chunkIndex + 1, audioChunks := [] }, some st.chunkIndex)
    else (st1, none)
  else (st, none)

/-- Events driving the client chunk buffer: a data tick from the
MediaRecorder, the pause handler, the resume handler. -/
inductive ClientEv where
  | data (size : Nat)
  | pauseEv
  | resumeEv
deriving DecidableEq, Repr

/-- One client event step: pause and resume flip the pause flag
(mediaRecorder.onpause / onresume); a data tick runs `onDataAvailable`. -/
def clientStep (st : ClientState) (ev : ClientEv) : ClientState × Option Nat :=
  match ev with
  | ClientEv.data size => onDataAvailable st size
  | ClientEv.pauseEv => ({ st with isPaused := true }, none)
  | ClientEv.resumeEv => ({ st with isPaused := false }, none)

/-- Run the client chunk buffer over a list of events, collecting the
emitted chunk indices in emission order. -/
def clientRun (st : ClientState) : List ClientEv → List Nat
  | [] => []
  | ev :: rest =>
    match clientStep st ev with
    | (st1, some i) => i :: clientRun st1 rest
    | (st1, none) => clientRun st1 rest

/-- Combined ingestion of one MediaRecorder data tick: when the client
buffer emits a chunk, the server processes it through `processAudioChunk`
with the audio:chunk handler timing; when nothing is emitted the
persisted state is untouched. -/
def ingestDataTick (db : DB) (st : ClientState) (size : Nat) (wsSt : WsState)
    (restExists : Bool) (restRes : RestOutcome) (sid : String)
    (metadata : Option Nat) : DB × ClientState :=
  match onDataAvailable st size with
  | (st1, none) => (db, st1)
  | (st1, some i) =>
    let se := audioChunkTiming metadata i
    (processAudioChunk db wsSt restExists restRes sid i se.1 se.2, st1)

/-- Per-connection state of the raw audio-stream WebSocket handler
(gemini-live.ts:263-267): the next chunk index, the buffered byte count,
the wall-clock time of the last flush, and whether the start control
message has arrived. The handler holds no pause flag and never reads the
session row, so pausing the session does not gate this path. -/
structure StreamState where
  chunkIndex : Nat
  audioBuffer : Nat
  lastChunkTime : Nat
  sessionStarted : Bool
deriving DecidableEq, Repr

/-- Binary-message branch of the audio-stream WebSocket handler
(gemini-live.ts:303-322): append the bytes to the buffer; once 30
seconds have elapsed since the last flush or the buffer exceeds 500000
bytes, and the buffer is nonempty on a started stream, emit one chunk
carrying the current index, reset the buffer and advance the index. No
condition consults the session's PAUSED status. -/
def audioStreamBinary (st : StreamState) (size now : Nat) : StreamState × Option Nat :=
  let buf := st.audioBuffer + size
  if 30000 ≤ now - st.lastChunkTime ∨ 500000 < buf then
    if 0 < buf ∧ st.sessionStarted = true then
      ({ st with audioBuffer := 0, chunkIndex := st.chunkIndex + 1, lastChunkTime := now },
       some st.chunkIndex)
    else ({ st with audioBuffer := buf }, none)
  else ({ st with audioBuffer := buf }, none)

/-- One binary message on the audio-stream WebSocket followed by the
processing it triggers (`sendAudioChunk`, gemini-live.ts:345-376): an
emitted chunk runs through `processAudioChunk` with the hardcoded
30-second timing; without an emission the persisted state is untouched. -/
def audioStreamIngest (db : DB) (st : StreamState) (size now : Nat) (wsSt : WsState)
    (restExists : Bool) (restRes : RestOutcome) (sid : String) : DB × StreamState :=
  match audioStreamBinary st size now with
  | (st1, none) => (db, st1)
  | (st1, some i) =>
    let se := sendAudioChunkTiming i
    (processAudioChunk db wsSt restExists restRes sid i se.1 se.2, st1)

/-- Chunk filter of `generateSessionSummary` (transcription.ts:271-282):
a chunk counts as real speech content when its trimmed text is nonempty,
does not start with a bracket, and matches none of the known placeholder
phrases. -/
def isRealChunk (c : ChunkRow) : Bool :=
  trimNonempty c.transcript &&
  !strStarts (strTrim c.transcript) "[" &&
  !strHasSub (strTrim c.transcript) "Audio transcription service not configured" &&
  !strHasSub (strTrim c.transcript) "Transcription failed" &&
  !strHasSub (strTrim c.transcript) "No speech detected" &&
  !strHasSub (strTrim c.transcript) "browser-based transcription placeholder"

/-- Insert a chunk row into a list sorted by ascending chunk index. -/
def insertByIdx (c : ChunkRow) : List ChunkRow → List ChunkRow
  | [] => [c]
  | d :: rest =>
    if c.chunkIndex ≤ d.chunkIndex then c :: d :: rest else d :: insertByIdx c rest

/-- Sort chunk rows by ascending chunk index
(`findMany({orderBy:{chunkIndex:"asc"}})`). -/
def sortByIdx : List ChunkRow → List ChunkRow
  | [] => []
  | c :: rest => insertByIdx c (sortByIdx rest)

/-- Concatenate all chunk texts into the full transcript passed to the
summary service (transcription.ts:265-267): each chunk rendered as its
range header plus text, blocks joined by blank lines. -/
def joinChunks : List ChunkRow → String
  | [] => ""
  | [c] => mkHeader c.startTime c.endTime ++ "\n" ++ c.transcript
  | c :: d :: rest =>
    mkHeader c.startTime c.endTime ++ "\n" ++ c.transcript ++ "\n\n" ++ joinChunks (d :: rest)

/-- Fixed summary text written when no real transcript content exists
(transcription.ts:290). -/
def noTranscriptMsg : String :=
  "No transcript available. Audio transcription service needs to be configured to generate summaries."

/-- Outcome of the external `generateSummary` call. -/
inductive SummaryOutcome where
  | ok (s : String)
  | errored
deriving DecidableEq, Repr

/-- Write status (and optionally summary) on the session row. -/
def writeSessionStatus (rows : List SessionRow) (sid : String) (status : String)
    (summary : Option (Option String)) : List SessionRow :=
  rows.map (fun s =>
    if s.id == sid then
      { s with status := status, summary := summary.getD s.summary }
    else s)

/-- Embedding of `generateSessionSummary` (transcription.ts:256-317).
Collect the session chunks in index order; when at least one passes the
real-content filter and the joined transcript is nonempty, invoke the
external summary service: on success persist the summary with status
COMPLETED, on an exception mark the session FAILED and leave the summary
field untouched. Without real content, persist the fixed no-transcript
message with status COMPLETED and never invoke the service. The second
component reports whether the external service was invoked. -/
def generateSessionSummary (db : DB) (sid : String) (ext : SummaryOutcome) :
    DB × Bool :=
  let chunks := sortByIdx (db.chunks.filter (fun c => c.sessionId == sid))
  let full := joinChunks chunks
  let hasReal := chunks.any isRealChunk
  if hasReal && trimNonempty full then
    match ext with
    | SummaryOutcome.ok s =>
      ({ db with sessions := writeSessionStatus db.sessions sid "COMPLETED" (some (some s)) },
       true)
    | SummaryOutcome.errored =>
      ({ db with sessions := writeSessionStatus db.sessions sid "FAILED" none }, true)
  else
    ({ db with sessions :=
        writeSessionStatus db.sessions sid "COMPLETED" (some (some noTranscriptMsg)) },
     false)

/-- Embedding of the stop route POST handler
(src/app/api/sessions/d/stop/route.ts, lines 36-83): a missing session or
one owned by another user yields an error response (`none`); otherwise
the session status is set to PROCESSING and the success acknowledgment is
returned. Summary generation is fired without being awaited, so at the
time the caller is acknowledged the state is exactly the returned one;
`generateSessionSummary` runs afterwards as a separate step. -/
def stopRoute (db : DB) (sid uid : String) : Option DB :=
  match findSession db.sessions sid with
  | none => none
  | some sess =>
    if !(sess.userId == uid) then none
    else some { db with sessions := writeSessionStatus db.sessions sid "PROCESSING" none }

/-! Helper lemmas about the string primitives. -/

theorem listStarts_refl (l : List Char) : listStarts l l = true := by
  induction l with
  | nil => rfl
  | cons c r ih => simp [listStarts, ih]

theorem listStarts_append_self (a b : List Char) : listStarts (a ++ b) a = true := by
  induction a with
  | nil => cases b <;> rfl
  | cons c r ih => simp [listStarts, ih]

theorem listHasSub_of_starts {hay p : List Char} (h : listStarts hay p = true) :
    listHasSub hay p = true := by
  cases hay with
  | nil =>
    cases p with
    | nil => rfl
    | cons c r => simp [listStarts] at h
  | cons c t => simp [listHasSub, h]

theorem listHasSub_self (l : List Char) : listHasSub l l = true :=
  listHasSub_of_starts (listStarts_refl l)

theorem strData_append (a b : String) : (a ++ b).data = a.data ++ b.data :=
  rfl

theorem strStarts_append (p rest : String) : strStarts (p ++ rest) p = true := by
  unfold strStarts
  rw [strData_append]
  exact listStarts_append_self p.data rest.data

theorem mkChunkMsg_hasSub (i : Nat) (tail : String) :
    strHasSub (mkChunkMsg i tail) "[Chunk" = true := by
  unfold strHasSub mkChunkMsg
  rw [String.append_assoc, strData_append]
  apply listHasSub_of_starts
  have h : listStarts "[Chunk ".data "[Chunk".data = true := by decide
  revert h
  generalize "[Chunk ".data = x
  generalize "[Chunk".data = p
  generalize (toString i ++ tail).data = y
  intro h
  induction x generalizing p with
  | nil => cases p with
    | nil => cases y <;> rfl
    | cons c r => simp [listStarts] at h
  | cons c r ih =>
    cases p with
    | nil => rfl
    | cons d s =>
      simp only [listStarts, Bool.and_eq_true] at h ⊢
      exact ⟨h.1, ih s h.2⟩

theorem mkChunkMsg_wsFilter (i : Nat) (tail : String) :
    wsFilterOk (mkChunkMsg i tail) = false := by
  unfold wsFilterOk
  rw [mkChunkMsg_hasSub]
  simp

/-! Trim idempotence. -/

theorem trimL_cons_false {c : Char} (r : List Char) (h : c.isWhitespace = false) :
    trimL (c :: r) = c :: r := by
  simp [trimL, h]

theorem trimL_idem (l : List Char) : trimL (trimL l) = trimL l := by
  induction l with
  | nil => rfl
  | cons c r ih =>
    by_cases h : c.isWhitespace
    · simpa [trimL, h] using ih
    · simp [trimL, h]

theorem trimL_head : ∀ (l : List Char) (c : Char) (r : List Char),
    trimL l = c :: r → c.isWhitespace = false := by
  intro l
  induction l with
  | nil => intro c r h; simp [trimL] at h
  | cons a as ih =>
    intro c r h
    by_cases ha : a.isWhitespace
    · exact ih c r (by simpa [trimL, ha] using h)
    · rw [trimL_cons_false as (by simpa using ha)] at h
      cases h
      simpa using ha

theorem trimL_decomp : ∀ l : List Char, ∃ a, l = a ++ trimL l := by
  intro l
  induction l with
  | nil => exact ⟨[], rfl⟩
  | cons c r ih =>
    by_cases h : c.isWhitespace
    · obtain ⟨a, ha⟩ := ih
      refine ⟨c :: a, ?_⟩
      simp [trimL, h]
      exact ha
    · exact ⟨[], by simp [trimL, h]⟩

theorem trimR_pre (l : List Char) : ∃ b, l = trimR l ++ b := by
  obtain ⟨a, ha⟩ := trimL_decomp l.reverse
  refine ⟨a.reverse, ?_⟩
  unfold trimR
  have := congrArg List.reverse ha
  simpa using this

theorem trimR_idem (l : List Char) : trimR (trimR l) = trimR l := by
  unfold trimR
  rw [List.reverse_reverse, trimL_idem]

theorem listTrim_idem (l : List Char) : listTrim (listTrim l) = listTrim l := by
  unfold listTrim
  have hL : trimL (trimR (trimL l)) = trimR (trimL l) := by
    cases htr : trimR (trimL l) with
    | nil => rfl
    | cons c r =>
      obtain ⟨b, hb⟩ := trimR_pre (trimL l)
      rw [htr] at hb
      have hc : c.isWhitespace = false := trimL_head l c (r ++ b) (by simpa using hb)
      exact trimL_cons_false r hc
  rw [hL, trimR_idem]

/-! Helper lemmas about the persistence operations. -/

theorem chunks_mergeTranscriptIfSession (db : DB) (sid : String) (s e : Nat) (t : String) :
    (mergeTranscriptIfSession db sid s e t).chunks = db.chunks := by
  unfold mergeTranscriptIfSession
  cases findSession db.sessions sid <;> rfl

theorem find?_append_none {α : Type} {p : α → Bool} {l₁ l₂ : List α}
    (h : l₁.find? p = none) : (l₁ ++ l₂).find? p = l₂.find? p := by
  induction l₁ with
  | nil => rfl
  | cons c r ih =>
    by_cases hc : p c
    · rw [List.find?_cons_of_pos _ hc] at h
      cases h
    · rw [List.find?_cons_of_neg _ hc] at h
      rw [List.cons_append, List.find?_cons_of_neg _ hc]
      exact ih h

theorem chunkKey_setTranscript (sid : String) (idx : Nat) (c : ChunkRow) (t : String) :
    chunkKey sid idx { c with transcript := t } = chunkKey sid idx c :=
  rfl

theorem findFirst_updateFirst (rows : List ChunkRow) (sid : String) (idx : Nat) (t : String) :
    findFirstChunk (updateFirstChunk rows sid idx t) sid idx =
      (findFirstChunk rows sid idx).map (fun c => { c with transcript := t }) := by
  induction rows with
  | nil => rfl
  | cons c rest ih =>
    by_cases hc : chunkKey sid idx c
    · unfold updateFirstChunk
      rw [if_pos hc]
      unfold findFirstChunk
      rw [List.find?_cons_of_pos _ (show chunkKey sid idx { c with transcript := t } = true from hc),
        List.find?_cons_of_pos _ hc]
      rfl
    · unfold updateFirstChunk
      rw [if_neg hc]
      unfold findFirstChunk
      rw [List.find?_cons_of_neg _ hc, List.find?_cons_of_neg _ hc]
      exact ih

theorem hasRow_mergeChunkRow (rows : List ChunkRow) (sid : String) (idx : Nat)
    (t : String) (s e : Nat) :
    (mergeChunkRow rows sid idx t s e).any (chunkKey sid idx) = true := by
  cases hf : findFirstChunk rows sid idx with
  | none =>
    simp only [mergeChunkRow, hf]
    rw [List.any_append]
    have hkey : chunkKey sid idx ⟨sid, idx, t, s, e⟩ = true := by
      simp [chunkKey]
    simp [hkey]
  | some c =>
    by_cases he : c.transcript == t
    · simp only [mergeChunkRow, hf]
      rw [if_pos he]
      exact List.any_eq_true.mpr ⟨c, List.mem_of_find?_eq_some hf, List.find?_some hf⟩
    · simp only [mergeChunkRow, hf]
      rw [if_neg he]
      have hupd := findFirst_updateFirst rows sid idx t
      rw [hf] at hupd
      exact List.any_eq_true.mpr
        ⟨_, List.mem_of_find?_eq_some hupd, List.find?_some hupd⟩

theorem sessionView_write (rows : List SessionRow) (sid : String) (t : String) :
    (writeSessionTranscript rows sid t).map (fun s => (s.id, s.userId, s.status, s.summary)) =
      rows.map (fun s => (s.id, s.userId, s.status, s.summary)) := by
  unfold writeSessionTranscript
  rw [List.map_map]
  congr 1
  funext s
  by_cases h : s.id = sid <;> simp [h]

theorem restFilterDirect_fallback {t : String} (h : restFilterDirect t = true) :
    restFilterFallback t = true := by
  unfold restFilterDirect at h
  unfold restFilterFallback
  simp only [Bool.and_eq_true] at h ⊢
  exact ⟨⟨h.1.1.1.1, h.1.1.1.2⟩, h.2⟩

theorem mem_insertByIdx {a c : ChunkRow} : ∀ {l : List ChunkRow},
    a ∈ insertByIdx c l → a = c ∨ a ∈ l := by
  intro l
  induction l with
  | nil => intro h; exact Or.inl (by simpa [insertByIdx] using h)
  | cons d rest ih =>
    intro h
    unfold insertByIdx at h
    by_cases hle : c.chunkIndex ≤ d.chunkIndex
    · rw [if_pos hle, List.mem_cons] at h
      rcases h with h | h
      · exact Or.inl h
      · exact Or.inr h
    · rw [if_neg hle, List.mem_cons] at h
      rcases h with h | h
      · exact Or.inr (List.mem_cons.mpr (Or.inl h))
      · rcases ih h with h1 | h1
        · exact Or.inl h1
        · exact Or.inr (List.mem_cons.mpr (Or.inr h1))

theorem mem_sortByIdx {a : ChunkRow} : ∀ {l : List ChunkRow},
    a ∈ sortByIdx l → a ∈ l := by
  intro l
  induction l with
  | nil => intro h; simp [sortByIdx] at h
  | cons c rest ih =>
    intro h
    unfold sortByIdx at h
    rcases mem_insertByIdx h with h1 | h1
    · exact List.mem_cons.mpr (Or.inl h1)
    · exact List.mem_cons_of_mem _ (ih h1)

/-- C9: between `startLiveSession` returning and the open event firing,
the session sits in the registry with `isConnected` still false, so
`hasActiveSession` reports false (it requires the connected flag and a
non-null handle), and a chunk processed in that window takes the direct
secondary route: the backend call trace is exactly the secondary backend.
`restExists` is false in this window because the REST registry is only
populated when the WebSocket start itself threw. -/
theorem C9_pre_open_window_routes_secondary (sendOk : Bool) (msg : String)
    (a : WsAwait) (i : Nat) :
    hasActiveSession (postStartState sendOk msg a) = false ∧
    (postStartState sendOk msg a).inMap = true ∧
    calledBackends (postStartState sendOk msg a) false i = [Backend.secondary] := by
  refine ⟨rfl, rfl, ?_⟩
  simp [calledBackends, hasActiveSession, postStartState]

/-- C10: the primary-backend `streamAudioChunk` is total — modelled as a
Lean function it resolves with a string on every input, mirroring the
source where every branch resolves rather than rejects — and on every
failure mode (session not in the registry, null WebSocket handle, socket
not OPEN, an exception before the send, a send error, or the timeout
firing instead of a transcript event) the resolved string starts with
the bracketed marker followed by the chunk index. -/
theorem C10_stream_failure_placeholder (st : WsState) (i : Nat)
    (h : ¬(st.inMap = true ∧ st.wsPresent = true ∧ st.readyState = 1 ∧
        st.outerThrow = none ∧ st.sendOk = true ∧
        ∃ t, st.await = WsAwait.transcriptEvent t)) :
    strStarts (streamAudioChunk st i) ("[Chunk " ++ toString i) = true := by
  have hpre : ∀ tail : String,
      strStarts (mkChunkMsg i tail) ("[Chunk " ++ toString i) = true := by
    intro tail
    unfold mkChunkMsg
    exact strStarts_append ("[Chunk " ++ toString i) tail
  cases hm : st.inMap with
  | false => simp only [streamAudioChunk, hm]; exact hpre _
  | true =>
  cases hw : st.wsPresent with
  | false => simp only [streamAudioChunk, hm, hw]; exact hpre _
  | true =>
  cases hr : st.readyState == 1 with
  | false => simp only [streamAudioChunk, hm, hw, hr]; exact hpre _
  | true =>
  have hr1 : st.readyState = 1 := by simpa using hr
  cases ho : st.outerThrow with
  | some m => simp only [streamAudioChunk, hm, hw, hr, ho]; exact hpre _
  | none =>
  cases hs : st.sendOk with
  | false => simp only [streamAudioChunk, hm, hw, hr, ho, hs]; exact hpre _
  | true =>
  cases ha : st.await with
  | timeout => simp only [streamAudioChunk, hm, hw, hr, ho, hs, ha]; exact hpre _
  | transcriptEvent t =>
    exact absurd ⟨hm, hw, hr1, ho, hs, t, ha⟩ h

/-- Witness for C10 at a concrete failing state: the session is not in
the registry, so the result for chunk 3 is the bracketed placeholder. -/
theorem C10_witness :
    strStarts
      (streamAudioChunk
        ⟨false, false, 0, false, none, false, "", WsAwait.timeout⟩ 3)
      ("[Chunk " ++ toString 3) = true :=
  C10_stream_failure_placeholder _ 3 (by intro hcon; simp at hcon)

/-- Claim C8 (amended): bytes delivered while paused through the
MediaRecorder ondataavailable path are buffered but never emitted — no
chunk index is produced, the counter does not advance, and the persisted
state is untouched because `processAudioChunk` is never invoked. The raw
audio-stream WebSocket path, by contrast, has no pause gating: whenever
its flush threshold is met with a nonempty buffer on a started stream,
it emits the pending chunk and advances its index, with no condition on
the session's PAUSED status, so such a chunk can be transcribed and
stored while the session is paused. -/
theorem C8_pause_gating :
    (∀ (db : DB) (st : ClientState) (size : Nat) (wsSt : WsState)
        (restExists : Bool) (restRes : RestOutcome) (sid : String)
        (metadata : Option Nat), st.isPaused = true →
      (ingestDataTick db st size wsSt restExists restRes sid metadata).1 = db ∧
      (ingestDataTick db st size wsSt restExists restRes sid metadata).2.chunkIndex =
        st.chunkIndex ∧
      (onDataAvailable st size).2 = none) ∧
    (∀ (st : StreamState) (size now : Nat),
      st.sessionStarted = true →
      (30000 ≤ now - st.lastChunkTime ∨ 500000 < st.audioBuffer + size) →
      0 < st.audioBuffer + size →
      (audioStreamBinary st size now).2 = some st.chunkIndex ∧
      (audioStreamBinary st size now).1.chunkIndex = st.chunkIndex + 1) := by
  constructor
  · intro db st size wsSt restExists restRes sid metadata h
    by_cases hs : 0 < size <;>
      simp [ingestDataTick, onDataAvailable, h, hs]
  · intro st size now hst hthr hbuf
    simp only [audioStreamBinary]
    rw [if_pos hthr, if_pos ⟨hbuf, hst⟩]
    exact ⟨rfl, rfl⟩

/-- Witness for C8 (amended) at concrete inputs: a paused client buffer
swallows a 500-byte tick without emitting, while a started audio-stream
connection at its 30-second threshold emits chunk 0 and advances to 1. -/
theorem C8_witness :
    ((ingestDataTick ⟨[], []⟩ ⟨[], 2, true⟩ 500
        ⟨false, false, 0, false, none, false, "", WsAwait.timeout⟩
        false RestOutcome.throws "s" none).1 = (⟨[], []⟩ : DB) ∧
     (ingestDataTick ⟨[], []⟩ ⟨[], 2, true⟩ 500
        ⟨false, false, 0, false, none, false, "", WsAwait.timeout⟩
        false RestOutcome.throws "s" none).2.chunkIndex = 2 ∧
     (onDataAvailable ⟨[], 2, true⟩ 500).2 = none) ∧
    ((audioStreamBinary ⟨0, 0, 0, true⟩ 1000 30000).2 = some 0 ∧
     (audioStreamBinary ⟨0, 0, 0, true⟩ 1000 30000).1.chunkIndex = 0 + 1) :=
  ⟨C8_pause_gating.1 ⟨[], []⟩ ⟨[], 2, true⟩ 500 _ false RestOutcome.throws "s" none rfl,
   C8_pause_gating.2 ⟨0, 0, 0, true⟩ 1000 30000 rfl (by decide) (by decide)⟩

/-- Counterexample for C8 as stated: a session whose stored status is
PAUSED still gets a TranscriptChunk row created and the audio-stream
chunk index advanced when bytes reach the raw audio-stream path at its
flush threshold and the secondary backend returns clean text — this
ingestion path performs no pause gating at all. -/
theorem C8_counterexample :
    sessionStatusAt ⟨[], [⟨"s", "u", "", "PAUSED", none⟩]⟩ "s" = some "PAUSED" ∧
    hasChunkRow
      (audioStreamIngest ⟨[], [⟨"s", "u", "", "PAUSED", none⟩]⟩ ⟨0, 0, 0, true⟩
        1000 30000 ⟨false, false, 0, false, none, false, "", WsAwait.timeout⟩ false
        (RestOutcome.returns "hello there") "s").1 "s" 0 = true ∧
    (audioStreamIngest ⟨[], [⟨"s", "u", "", "PAUSED", none⟩]⟩ ⟨0, 0, 0, true⟩
        1000 30000 ⟨false, false, 0, false, none, false, "", WsAwait.timeout⟩ false
        (RestOutcome.returns "hello there") "s").2.chunkIndex = 1 := by
  decide

/-- Helper: every run of the client chunk buffer emits strictly
increasing indices, all bounded below by the starting counter. -/
theorem clientRun_mono : ∀ (evs : List ClientEv) (st : ClientState),
    List.Chain' (· < ·) (clientRun st evs) ∧
    ∀ i ∈ clientRun st evs, st.chunkIndex ≤ i := by
  intro evs
  induction evs with
  | nil =>
    intro st
    constructor
    · simp [clientRun]
    · intro i h; simp [clientRun] at h
  | cons ev rest ih =>
    intro st
    cases ev with
    | pauseEv =>
      have h := ih { st with isPaused := true }
      constructor
      · simpa [clientRun, clientStep] using h.1
      · intro i hi
        exact h.2 i (by simpa [clientRun, clientStep] using hi)
    | resumeEv =>
      have h := ih { st with isPaused := false }
      constructor
      · simpa [clientRun, clientStep] using h.1
      · intro i hi
        exact h.2 i (by simpa [clientRun, clientStep] using hi)
    | data size =>
      by_cases hs : 0 < size
      · by_cases hp : st.isPaused
        · have h := ih { st with audioChunks := st.audioChunks ++ [size] }
          constructor
          · simpa [clientRun, clientStep, onDataAvailable, hs, hp] using h.1
          · intro i hi
            exact h.2 i
              (by simpa [clientRun, clientStep, onDataAvailable, hs, hp] using hi)
        · have h := ih { st with audioChunks := [], chunkIndex := st.chunkIndex + 1 }
          have hrun : clientRun st (ClientEv.data size :: rest) =
              st.chunkIndex ::
                clientRun { st with audioChunks := [], chunkIndex := st.chunkIndex + 1 } rest := by
            simp [clientRun, clientStep, onDataAvailable, hs, hp]
          constructor
          · rw [hrun]
            apply List.Chain'.cons'
            · exact h.1
            · intro b hb
              have hmem : b ∈ clientRun
                  { st with audioChunks := [], chunkIndex := st.chunkIndex + 1 } rest :=
                List.mem_of_mem_head? hb
              have hb2 : st.chunkIndex + 1 ≤ b := h.2 b hmem
              omega
          · intro i hi
            rw [hrun] at hi
            rcases List.mem_cons.mp hi with hi | hi
            · omega
            · have hb2 : st.chunkIndex + 1 ≤ i := h.2 i hi
              omega
      · have h := ih st
        constructor
        · simpa [clientRun, clientStep, onDataAvailable, hs] using h.1
        · intro i hi
          exact h.2 i
            (by simpa [clientRun, clientStep, onDataAvailable, hs] using hi)

/-- C4 (amended): the client chunk buffer never emits two chunks with the
same index; the audio:chunk handler merges index `i` of a session
configured with duration `D` at `startTime = i*D`, `endTime = (i+1)*D`;
the transcript:chunk handler always computes 30-second windows, which
coincides with the configured duration exactly on the modes where the
client enables Web Speech recognition (every mode except TAB); and the
raw audio-stream WebSocket path also always computes 30-second windows. -/
theorem C4_chunk_indexing :
    (∀ (st : ClientState) (evs : List ClientEv),
      (clientRun st evs).Pairwise (· ≠ ·)) ∧
    (∀ (mode : String) (i : Nat),
      audioChunkTiming (some (chunkDurationFor mode)) i =
        (i * chunkDurationFor mode, (i + 1) * chunkDurationFor mode)) ∧
    (∀ (mode : String) (i : Nat), webSpeechEnabled mode = true →
      transcriptChunkTiming i =
        (i * chunkDurationFor mode, (i + 1) * chunkDurationFor mode)) ∧
    (∀ i : Nat, sendAudioChunkTiming i = (i * 30, (i + 1) * 30)) := by
  refine ⟨?_, ?_, ?_, ?_⟩
  · intro st evs
    have h := (clientRun_mono evs st).1
    have hpw : (clientRun st evs).Pairwise (· < ·) :=
      List.chain'_iff_pairwise.mp h
    exact hpw.imp Nat.ne_of_lt
  · intro mode i
    simp [audioChunkTiming, Nat.succ_mul]
  · intro mode i hws
    have hmode : (mode == "TAB") = false := by
      unfold webSpeechEnabled at hws
      simpa using hws
    simp [transcriptChunkTiming, chunkDurationFor, hmode, Nat.succ_mul]
  · intro i
    simp [sendAudioChunkTiming, Nat.succ_mul]

/-- Witness for C4 at concrete inputs: a MIC session (Web Speech enabled,
configured duration 30) has transcript:chunk timing `(60, 90)` for
index 2. -/
theorem C4_witness :
    transcriptChunkTiming 2 = (2 * chunkDurationFor "MIC", (2 + 1) * chunkDurationFor "MIC") :=
  C4_chunk_indexing.2.2.1 "MIC" 2 (by decide)

/-- Counterexample for C4 as stated: a TAB session is configured with
chunk duration 5, yet the raw audio-stream ingestion path times index 1
as `(30, 60)` and the transcript:chunk handler stores a chunk for a TAB
session with `startTime = 30`, not `1 * 5`. -/
theorem C4_counterexample :
    chunkDurationFor "TAB" = 5 ∧
    sendAudioChunkTiming 1 ≠ (1 * chunkDurationFor "TAB", (1 + 1) * chunkDurationFor "TAB") ∧
    ((findFirstChunk
        (handleTranscriptChunk ⟨[], [⟨"s", "u", "", "RECORDING", none⟩]⟩ "s" "hi" 1).chunks
        "s" 1).map (fun c => c.startTime) = some 30) ∧
    (30 : Nat) ≠ 1 * chunkDurationFor "TAB" := by
  decide

/-- Helper: the persistence tail of processAudioChunk always leaves a row
for the pair when the text is not a placeholder. -/
theorem hasRow_store (db : DB) (sid : String) (idx s e : Nat) (t : String)
    (h : isPlaceholderSrv t = false) :
    hasChunkRow (storeServerTranscript db sid idx s e t) sid idx = true := by
  unfold storeServerTranscript
  rw [if_neg (by simp [h])]
  unfold hasChunkRow
  rw [chunks_mergeTranscriptIfSession]
  exact hasRow_mergeChunkRow db.chunks sid idx t s e

/-- C5: when the session has no active primary connection
(`hasActiveSession` false; the REST registry can only hold the session if
the primary registry never did, since the REST start runs only in the
catch of a failed WebSocket start), the backend call trace for every
chunk contains the secondary backend, and a secondary response passing
the content filters always leaves a stored TranscriptChunk row for the
pair. -/
theorem C5_fallback_stores (db : DB) (wsSt : WsState) (restExists : Bool)
    (t sid : String) (i s e : Nat)
    (h1 : hasActiveSession wsSt = false)
    (h2 : restExists = true → wsSt.inMap = false)
    (h3 : restFilterDirect t = true)
    (h4 : isPlaceholderSrv t = false) :
    Backend.secondary ∈ calledBackends wsSt restExists i ∧
    hasChunkRow
      (processAudioChunk db wsSt restExists (RestOutcome.returns t) sid i s e)
      sid i = true := by
  cases hre : restExists with
  | false =>
    constructor
    · simp [calledBackends, h1]
    · unfold processAudioChunk
      rw [show selectTranscript wsSt false (RestOutcome.returns t) i = some t by
        simp [selectTranscript, h1, h3]]
      exact hasRow_store db sid i s e t h4
  | true =>
    have hin : wsSt.inMap = false := h2 hre
    have hws : streamAudioChunk wsSt i = mkChunkMsg i ": Session not found]" := by
      simp [streamAudioChunk, hin]
    have hfil : wsFilterOk (streamAudioChunk wsSt i) = false := by
      rw [hws]; exact mkChunkMsg_wsFilter i _
    constructor
    · simp [calledBackends, h1, hfil]
    · unfold processAudioChunk
      rw [show selectTranscript wsSt true (RestOutcome.returns t) i = some t by
        simp [selectTranscript, h1, hfil, restFilterDirect_fallback h3]]
      exact hasRow_store db sid i s e t h4

/-- Witness for C5: with an unregistered primary session, no REST
registry entry, and the secondary returning clean text, chunk 0 is routed
to the secondary and stored. -/
theorem C5_witness :
    Backend.secondary ∈
      calledBackends ⟨false, false, 0, false, none, false, "", WsAwait.timeout⟩ false 0 ∧
    hasChunkRow
      (processAudioChunk ⟨[], []⟩
        ⟨false, false, 0, false, none, false, "", WsAwait.timeout⟩ false
        (RestOutcome.returns "hello there") "s" 0 0 30)
      "s" 0 = true :=
  C5_fallback_stores ⟨[], []⟩ _ false "hello there" "s" 0 0 30
    (by decide) (by intro h; cases h) (by decide) (by decide)

/-- C6: whenever the two-tier selection yields nothing (both backends
failed or every response was filtered), or yields a placeholder that the
final content filter rejects, `processAudioChunk` is a complete no-op on
the persisted state: no chunk row is created or updated, the running
transcript and the session status are untouched, and the post-processing
emission can only ever surface a previously stored row text, never the
rejected result. -/
theorem C6_drop_is_atomic (db : DB) (wsSt : WsState) (restExists : Bool)
    (restRes : RestOutcome) (sid : String) (idx s e : Nat)
    (h : selectTranscript wsSt restExists restRes idx = none ∨
      ∃ t, selectTranscript wsSt restExists restRes idx = some t ∧
        isPlaceholderSrv t = true) :
    processAudioChunk db wsSt restExists restRes sid idx s e = db ∧
    emitAfterProcess (processAudioChunk db wsSt restExists restRes sid idx s e) sid idx =
      emitAfterProcess db sid idx := by
  have hdb : processAudioChunk db wsSt restExists restRes sid idx s e = db := by
    rcases h with h | ⟨t, ht, hp⟩
    · unfold processAudioChunk
      rw [h]
    · unfold processAudioChunk
      rw [ht]
      unfold storeServerTranscript
      simp [hp]
  exact ⟨hdb, by rw [hdb]⟩

/-- Witness for C6: with no registered session on either backend and a
rejecting secondary, the chunk is dropped and the database (one existing
session row included) is byte-for-byte unchanged. -/
theorem C6_witness :
    processAudioChunk ⟨[], [⟨"s", "u", "", "RECORDING", none⟩]⟩
        ⟨false, false, 0, false, none, false, "", WsAwait.timeout⟩ false
        RestOutcome.throws "s" 0 0 30 =
      (⟨[], [⟨"s", "u", "", "RECORDING", none⟩]⟩ : DB) ∧
    emitAfterProcess
        (processAudioChunk ⟨[], [⟨"s", "u", "", "RECORDING", none⟩]⟩
          ⟨false, false, 0, false, none, false, "", WsAwait.timeout⟩ false
          RestOutcome.throws "s" 0 0 30) "s" 0 =
      emitAfterProcess ⟨[], [⟨"s", "u", "", "RECORDING", none⟩]⟩ "s" 0 :=
  C6_drop_is_atomic ⟨[], [⟨"s", "u", "", "RECORDING", none⟩]⟩ _ false
    RestOutcome.throws "s" 0 0 30 (Or.inl (by decide))

/-- Helper: looking up the session after a status write returns the old
row with the status (and optionally the summary) rewritten. -/
theorem findSession_writeStatus (rows : List SessionRow) (sid : String)
    (status : String) (summary : Option (Option String)) :
    findSession (writeSessionStatus rows sid status summary) sid =
      (findSession rows sid).map
        (fun s0 => { s0 with status := status, summary := summary.getD s0.summary }) := by
  induction rows with
  | nil => rfl
  | cons r rest ih =>
    by_cases h : r.id = sid
    · simp [writeSessionStatus, findSession, h]
    · simp only [writeSessionStatus, findSession, List.map_cons] at ih ⊢
      rw [List.find?_cons_of_neg _ (by simp [h]), List.find?_cons_of_neg _ (by simp [h])]
      exact ih

/-- C7: stopping a session acknowledges the caller with the status set to
PROCESSING and the summary still untouched (summary generation is fired
without being awaited); the subsequent summary step moves the session to
COMPLETED and persists the summary text when the external call succeeds,
moves it to FAILED with the summary field untouched when the external
call throws, and the external service is only ever invoked when at least
one stored chunk of the session passes the real-content filter. -/
theorem C7_stop_then_summary :
    (∀ (db : DB) (sid uid : String) (db2 : DB), stopRoute db sid uid = some db2 →
      sessionStatusAt db2 sid = some "PROCESSING" ∧
      sessionSummaryAt db2 sid = sessionSummaryAt db sid) ∧
    (∀ (db : DB) (sid : String) (sess : SessionRow) (s : String),
      findSession db.sessions sid = some sess →
      (generateSessionSummary db sid (SummaryOutcome.ok s)).2 = true →
      sessionStatusAt (generateSessionSummary db sid (SummaryOutcome.ok s)).1 sid =
        some "COMPLETED" ∧
      sessionSummaryAt (generateSessionSummary db sid (SummaryOutcome.ok s)).1 sid =
        some (some s)) ∧
    (∀ (db : DB) (sid : String) (sess : SessionRow),
      findSession db.sessions sid = some sess →
      (generateSessionSummary db sid SummaryOutcome.errored).2 = true →
      sessionStatusAt (generateSessionSummary db sid SummaryOutcome.errored).1 sid =
        some "FAILED" ∧
      sessionSummaryAt (generateSessionSummary db sid SummaryOutcome.errored).1 sid =
        sessionSummaryAt db sid) ∧
    (∀ (db : DB) (sid : String) (ext : SummaryOutcome),
      (generateSessionSummary db sid ext).2 = true →
      ∃ c ∈ db.chunks, c.sessionId = sid ∧ isRealChunk c = true) := by
  refine ⟨?_, ?_, ?_, ?_⟩
  · intro db sid uid db2 h
    cases hf : findSession db.sessions sid with
    | none =>
      rw [show stopRoute db sid uid = none by simp [stopRoute, hf]] at h
      cases h
    | some sess =>
      have hval : stopRoute db sid uid =
          if (!(sess.userId == uid)) = true then none
          else some { db with sessions :=
            writeSessionStatus db.sessions sid "PROCESSING" none } := by
        simp [stopRoute, hf]
      rw [hval] at h
      by_cases hu : sess.userId == uid
      · rw [if_neg (by simp [hu])] at h
        have hdb2 : ({ db with sessions := writeSessionStatus db.sessions sid "PROCESSING" none } : DB) = db2 :=
          Option.some.inj h
        subst hdb2
        constructor
        · unfold sessionStatusAt
          rw [show (({ db with sessions :=
              writeSessionStatus db.sessions sid "PROCESSING" none } : DB)).sessions =
              writeSessionStatus db.sessions sid "PROCESSING" none from rfl,
            findSession_writeStatus, hf]
          rfl
        · unfold sessionSummaryAt
          rw [show (({ db with sessions :=
              writeSessionStatus db.sessions sid "PROCESSING" none } : DB)).sessions =
              writeSessionStatus db.sessions sid "PROCESSING" none from rfl,
            findSession_writeStatus, hf]
          rfl
      · rw [if_pos (by simp [hu])] at h
        cases h
  · intro db sid sess s hf hinv
    by_cases hc : ((sortByIdx (db.chunks.filter (fun c => c.sessionId == sid))).any isRealChunk
        && trimNonempty (joinChunks (sortByIdx (db.chunks.filter (fun c => c.sessionId == sid)))))
    · constructor
      · unfold sessionStatusAt
        rw [show (generateSessionSummary db sid (SummaryOutcome.ok s)).1.sessions =
            writeSessionStatus db.sessions sid "COMPLETED" (some (some s)) by
          simp [generateSessionSummary, hc]]
        rw [findSession_writeStatus, hf]
        rfl
      · unfold sessionSummaryAt
        rw [show (generateSessionSummary db sid (SummaryOutcome.ok s)).1.sessions =
            writeSessionStatus db.sessions sid "COMPLETED" (some (some s)) by
          simp [generateSessionSummary, hc]]
        rw [findSession_writeStatus, hf]
        rfl
    · exfalso
      have : (generateSessionSummary db sid (SummaryOutcome.ok s)).2 = false := by
        simp [generateSessionSummary, hc]
      rw [hinv] at this
      cases this
  · intro db sid sess hf hinv
    by_cases hc : ((sortByIdx (db.chunks.filter (fun c => c.sessionId == sid))).any isRealChunk
        && trimNonempty (joinChunks (sortByIdx (db.chunks.filter (fun c => c.sessionId == sid)))))
    · constructor
      · unfold sessionStatusAt
        rw [show (generateSessionSummary db sid SummaryOutcome.errored).1.sessions =
            writeSessionStatus db.sessions sid "FAILED" none by
          simp [generateSessionSummary, hc]]
        rw [findSession_writeStatus, hf]
        rfl
      · unfold sessionSummaryAt
        rw [show (generateSessionSummary db sid SummaryOutcome.errored).1.sessions =
            writeSessionStatus db.sessions sid "FAILED" none by
          simp [generateSessionSummary, hc]]
        rw [findSession_writeStatus, hf]
        rfl
    · exfalso
      have : (generateSessionSummary db sid SummaryOutcome.errored).2 = false := by
        simp [generateSessionSummary, hc]
      rw [hinv] at this
      cases this
  · intro db sid ext hinv
    by_cases hc : ((sortByIdx (db.chunks.filter (fun c => c.sessionId == sid))).any isRealChunk
        && trimNonempty (joinChunks (sortByIdx (db.chunks.filter (fun c => c.sessionId == sid)))))
    · have hany : (sortByIdx (db.chunks.filter (fun c => c.sessionId == sid))).any
          isRealChunk = true := (Bool.and_eq_true _ _).mp hc |>.1
      obtain ⟨c, hmem, hreal⟩ := List.any_eq_true.mp hany
      have hmem2 : c ∈ db.chunks.filter (fun c => c.sessionId == sid) := mem_sortByIdx hmem
      have hmem3 : c ∈ db.chunks ∧ (c.sessionId == sid) = true := List.mem_filter.mp hmem2
      exact ⟨c, hmem3.1, by simpa using hmem3.2, hreal⟩
    · exfalso
      have : (generateSessionSummary db sid ext).2 = false := by
        cases ext <;> simp [generateSessionSummary, hc]
      rw [hinv] at this
      cases this

/-- Witness for C7: stopping an owned RECORDING session yields the
PROCESSING acknowledgment state with the summary still null. -/
theorem C7_witness :
    sessionStatusAt (⟨[], [⟨"s", "u", "", "PROCESSING", none⟩]⟩ : DB) "s" =
      some "PROCESSING" ∧
    sessionSummaryAt (⟨[], [⟨"s", "u", "", "PROCESSING", none⟩]⟩ : DB) "s" =
      sessionSummaryAt (⟨[], [⟨"s", "u", "", "RECORDING", none⟩]⟩ : DB) "s" :=
  C7_stop_then_summary.1 ⟨[], [⟨"s", "u", "", "RECORDING", none⟩]⟩ "s" "u"
    ⟨[], [⟨"s", "u", "", "PROCESSING", none⟩]⟩ (by decide)

/-! Helpers for the merge-idempotence and update-rule claims. -/

theorem strTrim_idem (t : String) : strTrim (strTrim t) = strTrim t := by
  unfold strTrim
  rw [show (String.mk (listTrim t.data)).data = listTrim t.data from rfl, listTrim_idem]

theorem strHasSub_self (t : String) : strHasSub t t = true :=
  listHasSub_self t.data

theorem findFirst_of_filter_nil {rows : List ChunkRow} {sid : String} {idx : Nat}
    (h : rows.filter (chunkKey sid idx) = []) :
    findFirstChunk rows sid idx = none := by
  unfold findFirstChunk
  rw [List.find?_eq_none]
  intro x hx
  have hall := List.filter_eq_nil_iff.mp h x hx
  simpa using hall

theorem store_chunks_same (db : DB) (sid : String) (idx s e : Nat) (t : String)
    (c : ChunkRow) (hf : findFirstChunk db.chunks sid idx = some c)
    (heq : c.transcript = t) :
    (storeServerTranscript db sid idx s e t).chunks = db.chunks := by
  by_cases hp : isPlaceholderSrv t
  · simp [storeServerTranscript, hp]
  · unfold storeServerTranscript
    rw [if_neg hp, chunks_mergeTranscriptIfSession]
    show mergeChunkRow db.chunks sid idx t s e = db.chunks
    unfold mergeChunkRow
    simp only [hf]
    rw [if_pos (by simp [heq])]

theorem store_chunks_fresh (db : DB) (sid : String) (idx s e : Nat) (t : String)
    (hfil : db.chunks.filter (chunkKey sid idx) = [])
    (hpl : isPlaceholderSrv t = false) :
    (storeServerTranscript db sid idx s e t).chunks =
      db.chunks ++ [⟨sid, idx, t, s, e⟩] := by
  unfold storeServerTranscript
  rw [if_neg (by simp [hpl]), chunks_mergeTranscriptIfSession]
  show mergeChunkRow db.chunks sid idx t s e = _
  unfold mergeChunkRow
  rw [findFirst_of_filter_nil hfil]

theorem client_noop_of_sub (db : DB) (sid t : String) (idx : Nat) (c : ChunkRow)
    (hf : findFirstChunk db.chunks sid idx = some c)
    (hsub : strHasSub (strTrim c.transcript) (strTrim t) = true) :
    handleTranscriptChunk db sid t idx = db := by
  by_cases hpl : isPlaceholderClient t
  · simp [handleTranscriptChunk, hpl]
  · unfold handleTranscriptChunk
    rw [if_neg hpl, hf]
    simp [hsub]

theorem client_chunks_fresh (db : DB) (sid t : String) (idx : Nat)
    (hfil : db.chunks.filter (chunkKey sid idx) = [])
    (hpl : isPlaceholderClient t = false) :
    (handleTranscriptChunk db sid t idx).chunks =
      db.chunks ++ [⟨sid, idx, strTrim t, idx * 30, idx * 30 + 30⟩] := by
  unfold handleTranscriptChunk
  rw [if_neg (by simp [hpl]), findFirst_of_filter_nil hfil]
  rw [chunks_mergeTranscriptIfSession]

/-- C1 (amended): submitting the same `(sessionId, chunkIndex, text)`
twice through either merge path leaves exactly one TranscriptChunk row
whose text after the second submission equals its text after the first.
On the client transcript:chunk path, an incoming text whose trimmed form
is already contained in the stored trimmed text makes the whole handler a
no-op. On the backend path only an incoming text equal to the stored
text skips the row update (the running transcript is still re-merged);
an incoming proper substring replaces the stored row text instead of
being a no-op. -/
theorem C1_merge_idempotence :
    (∀ (db : DB) (sid : String) (idx s e : Nat) (t : String),
      db.chunks.filter (chunkKey sid idx) = [] →
      isPlaceholderSrv t = false →
      countRows (storeServerTranscript (storeServerTranscript db sid idx s e t)
          sid idx s e t) sid idx = 1 ∧
      chunkTextAt (storeServerTranscript (storeServerTranscript db sid idx s e t)
          sid idx s e t) sid idx =
        chunkTextAt (storeServerTranscript db sid idx s e t) sid idx) ∧
    (∀ (db : DB) (sid t : String) (idx : Nat),
      db.chunks.filter (chunkKey sid idx) = [] →
      isPlaceholderClient t = false →
      countRows (handleTranscriptChunk (handleTranscriptChunk db sid t idx)
          sid t idx) sid idx = 1 ∧
      chunkTextAt (handleTranscriptChunk (handleTranscriptChunk db sid t idx)
          sid t idx) sid idx =
        chunkTextAt (handleTranscriptChunk db sid t idx) sid idx) ∧
    (∀ (db : DB) (sid t : String) (idx : Nat) (c : ChunkRow),
      findFirstChunk db.chunks sid idx = some c →
      strHasSub (strTrim c.transcript) (strTrim t) = true →
      handleTranscriptChunk db sid t idx = db) ∧
    (∀ (db : DB) (sid : String) (idx s e : Nat) (t : String) (c : ChunkRow),
      findFirstChunk db.chunks sid idx = some c →
      c.transcript = t →
      (storeServerTranscript db sid idx s e t).chunks = db.chunks) := by
  refine ⟨?_, ?_, ?_, ?_⟩
  · intro db sid idx s e t hfil hpl
    have hkeyrow : chunkKey sid idx (⟨sid, idx, t, s, e⟩ : ChunkRow) = true := by
      simp [chunkKey]
    have h1 := store_chunks_fresh db sid idx s e t hfil hpl
    have hfind1 : findFirstChunk (storeServerTranscript db sid idx s e t).chunks
        sid idx = some ⟨sid, idx, t, s, e⟩ := by
      rw [h1]
      unfold findFirstChunk
      rw [find?_append_none (findFirst_of_filter_nil hfil),
        List.find?_cons_of_pos _ hkeyrow]
    have h2 := store_chunks_same (storeServerTranscript db sid idx s e t)
      sid idx s e t ⟨sid, idx, t, s, e⟩ hfind1 rfl
    constructor
    · unfold countRows
      rw [h2, h1, List.filter_append, hfil]
      simp [hkeyrow]
    · unfold chunkTextAt
      rw [h2]
  · intro db sid t idx hfil hpl
    have hkeyrow : chunkKey sid idx
        (⟨sid, idx, strTrim t, idx * 30, idx * 30 + 30⟩ : ChunkRow) = true := by
      simp [chunkKey]
    have h1 := client_chunks_fresh db sid t idx hfil hpl
    have hfind1 : findFirstChunk (handleTranscriptChunk db sid t idx).chunks
        sid idx = some ⟨sid, idx, strTrim t, idx * 30, idx * 30 + 30⟩ := by
      rw [h1]
      unfold findFirstChunk
      rw [find?_append_none (findFirst_of_filter_nil hfil),
        List.find?_cons_of_pos _ hkeyrow]
    have hsub : strHasSub (strTrim (strTrim t)) (strTrim t) = true := by
      rw [strTrim_idem]
      exact strHasSub_self (strTrim t)
    have h2 := client_noop_of_sub (handleTranscriptChunk db sid t idx) sid t idx
      ⟨sid, idx, strTrim t, idx * 30, idx * 30 + 30⟩ hfind1 hsub
    constructor
    · unfold countRows
      rw [h2, h1, List.filter_append, hfil]
      simp [hkeyrow]
    · unfold chunkTextAt
      rw [h2]
  · exact fun db sid t idx c hf hsub => client_noop_of_sub db sid t idx c hf hsub
  · exact fun db sid idx s e t c hf heq => store_chunks_same db sid idx s e t c hf heq

/-- Witness for C1 (amended) on the backend path from an empty store:
two identical submissions of chunk 0 leave exactly one row with stable
text. -/
theorem C1_witness :
    countRows (storeServerTranscript (storeServerTranscript ⟨[], []⟩ "s" 0 0 30 "hi")
        "s" 0 0 30 "hi") "s" 0 = 1 ∧
    chunkTextAt (storeServerTranscript (storeServerTranscript ⟨[], []⟩ "s" 0 0 30 "hi")
        "s" 0 0 30 "hi") "s" 0 =
      chunkTextAt (storeServerTranscript ⟨[], []⟩ "s" 0 0 30 "hi") "s" 0 :=
  C1_merge_idempotence.1 ⟨[], []⟩ "s" 0 0 30 "hi" (by decide) (by decide)

/-- Counterexample for C1 as stated: on the backend merge path, an
incoming text that is a proper substring of the stored text is not a
no-op — the stored row text is replaced by the shorter text. -/
theorem C1_counterexample :
    strHasSub (strTrim "hello world") (strTrim "hello") = true ∧
    chunkTextAt
      (storeServerTranscript
        ⟨[⟨"s", 0, "hello world", 0, 30⟩],
         [⟨"s", "u", "[0s - 30s]\nhello world", "RECORDING", none⟩]⟩
        "s" 0 0 30 "hello") "s" 0 = some "hello" ∧
    some "hello" ≠ some "hello world" := by
  decide

/-- C2 (amended): for a merge into an existing row whose stored text
differs from and does not contain the incoming text, the directions are
the opposite of the claim: the client transcript:chunk path appends the
trimmed incoming text to the trimmed stored text with a single space,
and the backend processAudioChunk path replaces the stored text with the
incoming text. -/
theorem C2_update_rules :
    (∀ (db : DB) (sid t : String) (idx : Nat) (c : ChunkRow),
      findFirstChunk db.chunks sid idx = some c →
      isPlaceholderClient t = false →
      strHasSub (strTrim c.transcript) (strTrim t) = false →
      chunkTextAt (handleTranscriptChunk db sid t idx) sid idx =
        some (strTrim (if strTrim c.transcript == "" then strTrim t
          else strTrim c.transcript ++ " " ++ strTrim t))) ∧
    (∀ (db : DB) (sid : String) (idx s e : Nat) (t : String) (c : ChunkRow),
      findFirstChunk db.chunks sid idx = some c →
      isPlaceholderSrv t = false →
      c.transcript ≠ t →
      chunkTextAt (storeServerTranscript db sid idx s e t) sid idx = some t) := by
  constructor
  · intro db sid t idx c hf hpl hsub
    unfold handleTranscriptChunk
    rw [if_neg (by simp [hpl])]
    simp only [hf, hsub, Bool.false_eq_true, if_false]
    unfold chunkTextAt
    rw [chunks_mergeTranscriptIfSession, findFirst_updateFirst, hf]
    rfl
  · intro db sid idx s e t c hf hpl hne
    unfold storeServerTranscript
    rw [if_neg (by simp [hpl])]
    unfold chunkTextAt
    rw [chunks_mergeTranscriptIfSession]
    unfold mergeChunkRow
    simp only [hf]
    rw [if_neg (by simp [hne]), findFirst_updateFirst, hf]
    rfl

/-- Witness for C2 (amended): stored "hello", incoming "world" — the
client path yields the space-joined text, the backend path yields the
replacement. -/
theorem C2_witness :
    chunkTextAt
      (handleTranscriptChunk
        ⟨[⟨"s", 0, "hello", 0, 30⟩],
         [⟨"s", "u", "[0s - 30s]\nhello", "RECORDING", none⟩]⟩ "s" "world" 0) "s" 0 =
      some (strTrim (if strTrim "hello" == "" then strTrim "world"
        else strTrim "hello" ++ " " ++ strTrim "world")) :=
  C2_update_rules.1
    ⟨[⟨"s", 0, "hello", 0, 30⟩],
     [⟨"s", "u", "[0s - 30s]\nhello", "RECORDING", none⟩]⟩ "s" "world" 0
    ⟨"s", 0, "hello", 0, 30⟩ (by decide) (by decide) (by decide)

/-- Counterexample for C2 as stated: at stored "hello" and incoming
"world", the client path produces "hello world" (append, not the claimed
replace) and the backend path produces "world" (replace, not the claimed
append). -/
theorem C2_counterexample :
    chunkTextAt
      (handleTranscriptChunk
        ⟨[⟨"s", 0, "hello", 0, 30⟩],
         [⟨"s", "u", "[0s - 30s]\nhello", "RECORDING", none⟩]⟩ "s" "world" 0) "s" 0 =
      some "hello world" ∧
    some "hello world" ≠ some "world" ∧
    chunkTextAt
      (storeServerTranscript
        ⟨[⟨"s", 0, "hello", 0, 30⟩],
         [⟨"s", "u", "[0s - 30s]\nhello", "RECORDING", none⟩]⟩ "s" 0 0 30 "world")
      "s" 0 = some "world" ∧
    some "world" ≠ some "hello world" := by
  decide

/-! Helpers for the running-transcript block merge. -/

theorem takeWhileAll {p : Char → Bool} : ∀ {l : List Char},
    (∀ c ∈ l, p c = true) → l.takeWhile p = l := by
  intro l
  induction l with
  | nil => intro _; rfl
  | cons c r ih =>
    intro h
    rw [List.takeWhile_cons, h c (List.mem_cons_self c r)]
    rw [ih (fun x hx => h x (List.mem_cons_of_mem _ hx))]
    simp

theorem dropWhileAll {p : Char → Bool} : ∀ {l : List Char},
    (∀ c ∈ l, p c = true) → l.dropWhile p = [] := by
  intro l
  induction l with
  | nil => intro _; rfl
  | cons c r ih =>
    intro h
    rw [List.dropWhile_cons, h c (List.mem_cons_self c r)]
    exact ih (fun x hx => h x (List.mem_cons_of_mem _ hx))

theorem listTrim_cons_ws (c : Char) (l : List Char) (h : c.isWhitespace = true) :
    listTrim (c :: l) = listTrim l := by
  unfold listTrim
  rw [show trimL (c :: l) = trimL l by simp [trimL, h]]

theorem replaceF_nil (hdr nt : List Char) (fuel : Nat) :
    replaceBlocksF hdr nt fuel [] = [] := by
  cases fuel <;> rfl

theorem replaceF_single (k : Nat) (hr body nt : List Char)
    (hb : ∀ c ∈ body, (c == '[') = false) :
    replaceBlocksF ('[' :: hr) nt (k + 1) ('[' :: (hr ++ '\n' :: body)) =
      ('[' :: hr) ++ '\n' :: grabCombined ('\n' :: body) nt := by
  have hstart : listStarts ('[' :: (hr ++ '\n' :: body)) ('[' :: hr) = true := by
    simp only [listStarts, listStarts_append_self]
    simp
  have hall : ∀ c ∈ '\n' :: body, (fun ch => !(ch == '[')) c = true := by
    intro c hc
    rcases List.mem_cons.mp hc with hc | hc
    · subst hc; decide
    · simp [hb c hc]
  simp only [replaceBlocksF, hstart, if_true]
  rw [show ('[' :: (hr ++ '\n' :: body)).drop ('[' :: hr).length = '\n' :: body by
    rw [List.length_cons, List.drop_succ_cons, List.drop_left]]
  rw [takeWhileAll hall, dropWhileAll hall, replaceF_nil, List.append_nil]

/-- C3: the running-transcript merge. First, concretely: storing "hello"
for range (0,30) and then merging "world" for the same range through the
backend path leaves the session transcript as the single block
`[0s - 30s]` containing "hello world". Second, when no block with the
range header exists, the merge appends a new block at the end, separated
by a blank line unless the transcript was empty. Third, in general, when
the transcript consists of a block with that exact header whose body has
no bracket characters, the merge rewrites the block in place,
space-joining the trimmed incoming text onto the trimmed existing
body. -/
theorem C3_block_merge :
    (sessionTranscriptAt
      (storeServerTranscript
        (storeServerTranscript ⟨[], [⟨"s", "u", "", "RECORDING", none⟩]⟩
          "s" 0 0 30 "hello")
        "s" 0 0 30 "world") "s" = some "[0s - 30s]\nhello world") ∧
    (∀ (E : String) (s e : Nat) (t : String),
      strHasSub E (mkHeader s e) = false →
      (E = "" → mergeSessionTranscript E s e t = mkHeader s e ++ "\n" ++ t) ∧
      (E ≠ "" → mergeSessionTranscript E s e t =
        E ++ "\n\n" ++ mkHeader s e ++ "\n" ++ t)) ∧
    (∀ (s e : Nat) (body : List Char) (t : String),
      (∀ c ∈ body, (c == '[') = false) →
      mergeSessionTranscript (String.mk ((mkHeader s e).data ++ '\n' :: body)) s e t =
        String.mk ((mkHeader s e).data ++ '\n' ::
          (if (listTrim body).isEmpty then listTrim t.data
           else listTrim body ++ ' ' :: listTrim t.data))) := by
  refine ⟨by decide, ?_, ?_⟩
  · intro E s e t hno
    constructor
    · intro hE
      subst hE
      unfold mergeSessionTranscript
      rw [if_neg (by simp [hno]), if_pos (by decide)]
    · intro hE
      unfold mergeSessionTranscript
      rw [if_neg (by simp [hno]), if_neg (by simp [hE])]
  · intro s e body t hb
    have hassoc : mkHeader s e =
        "[" ++ (toString s ++ ("s - " ++ (toString e ++ "s]"))) := by
      unfold mkHeader
      rw [String.append_assoc, String.append_assoc, String.append_assoc]
    have hdata : (mkHeader s e).data =
        '[' :: (toString s ++ ("s - " ++ (toString e ++ "s]"))).data := by
      rw [hassoc]; rfl
    have hsub : strHasSub (String.mk ((mkHeader s e).data ++ '\n' :: body))
        (mkHeader s e) = true := by
      unfold strHasSub
      exact listHasSub_of_starts (listStarts_append_self _ _)
    unfold mergeSessionTranscript
    rw [if_pos hsub]
    unfold replaceBlocks
    rw [show (String.mk ((mkHeader s e).data ++ '\n' :: body)).data =
      (mkHeader s e).data ++ '\n' :: body from rfl]
    rw [hdata]
    rw [List.cons_append, List.length_cons, List.length_append, List.length_cons]
    rw [replaceF_single _ _ body (listTrim t.data) hb]
    rw [show grabCombined ('\n' :: body) (listTrim t.data) =
        (if (listTrim body).isEmpty then listTrim t.data
         else listTrim body ++ ' ' :: listTrim t.data) by
      unfold grabCombined
      rw [listTrim_cons_ws '\n' body (by decide)]]

/-- Witness for C3 at concrete inputs: merging "world" into the single
block `[0s - 30s]` holding "hello" space-joins in place. -/
theorem C3_witness :
    mergeSessionTranscript (String.mk ((mkHeader 0 30).data ++ '\n' :: "hello".data))
        0 30 "world" =
      String.mk ((mkHeader 0 30).data ++ '\n' ::
        (if (listTrim "hello".data).isEmpty then listTrim "world".data
         else listTrim "hello".data ++ ' ' :: listTrim "world".data)) :=
  C3_block_merge.2.2 0 30 "hello".data "world" (by decide)

end Scribe
